import Mathlib

/-!
Shallow embedding of the state and operations of `src/program.py`
(Cat's EMU DS, class `CatsEmuDS`), for checking the repository's
natural-language specification against the code.

Modelling conventions:
* Python instance attributes of `CatsEmuDS` become fields of `EmuState`.
  Tk widgets are reduced to the data they display (`statusMsg`,
  `stateIndicator`, `fpsLabel`, `frameLabel`, `windowTitle`); purely visual
  operations (canvas drawing, geometry, fonts, dialogs) have no state content
  and are omitted.
* Wall-clock time (`time.time()`, `time.perf_counter()` deltas) is passed in
  as a rational parameter; `time.sleep` is modelled by returning the slept
  duration.
* Calls into the external `DeSmuME` core are modelled by their effect on a
  small `Core` record (touch input state) or, for `emu.cycle()`, by a
  `CycleResult` parameter saying whether the call returned normally (and how
  long it took) or raised an exception with a given message.
* `print` output is modelled as an explicit console-line list where a claim
  depends on it.
-/

namespace CatsEmu

/-- State of the external emulation core that the claims observe: the
currently applied touch position (`emu.input.touch_set_pos` /
`emu.input.touch_release`), or `none` when released. -/
structure Core where
  touch : Option (Int × Int)
deriving DecidableEq

/-- The mutable attributes set up in `CatsEmuDS.__init__` (src/program.py
lines 90-117, 216, and the status-bar labels of `_build_status_bar`).
`emu` is `some` core when the DeSmuME backend imported and constructed
(`EMU_AVAILABLE` and `DeSmuME()` succeeded), `none` otherwise.
`fpsLabel` holds the rate shown by `fps_label` (`none` for the initial
"FPS: --"), `frameLabel` the frame number shown by `frame_label`,
`stateIndicator` the word shown by `state_label`. -/
structure EmuState where
  emu : Option Core
  rom_path : Option String
  rom_name : String
  windowTitle : String
  running : Bool
  paused : Bool
  frame_count : Nat
  fps : ℚ
  fps_timer : ℚ
  fps_frame_count : Nat
  statusMsg : String
  stateIndicator : String
  fpsLabel : Option ℚ
  frameLabel : Nat
  screen_scale : Int
deriving DecidableEq

def TITLE : String := "Cat's EMU DS"

def VERSION : String := "0.1 infdev"

/-- The state after `CatsEmuDS.__init__` runs with no `rom_path` argument:
`emuAvail` says whether the core import/construction succeeded, `t0` is the
`time.time()` stored in `fps_timer`. `screen_scale` is the `IntVar`
initialised to 2. -/
def initState (emuAvail : Bool) (t0 : ℚ) : EmuState :=
  { emu := if emuAvail then some { touch := none } else none
    rom_path := none
    rom_name := "No ROM Loaded"
    windowTitle := TITLE ++ " " ++ VERSION ++ " - " ++ "No ROM Loaded"
    running := false
    paused := true
    frame_count := 0
    fps := 0
    fps_timer := t0
    fps_frame_count := 0
    statusMsg := "Ready - Load a ROM to begin"
    stateIndicator := "STOPPED"
    fpsLabel := none
    frameLabel := 0
    screen_scale := 2 }

/-- The run-state vocabulary of the spec's Session model. The code has no
explicit `runState` variable; it is derived: Stopped when no ROM is loaded or
no core is present, otherwise Paused or Running according to `paused`. -/
inductive RunState where
  | Stopped
  | Paused
  | Running
deriving DecidableEq

def runState (s : EmuState) : RunState :=
  if s.rom_path.isSome && s.emu.isSome then
    if s.paused then RunState.Paused else RunState.Running
  else RunState.Stopped

/-- Outcome of one `self.emu.cycle()` call, which is external to the
repository: either it returns after `elapsed` seconds, or it raises an
exception whose message is `msg`. -/
inductive CycleResult where
  | ok (elapsed : ℚ)
  | fault (msg : String)
deriving DecidableEq

/-- POSIX `os.path.basename`, as used by `load_rom`: the final component
after splitting on slashes. -/
def basename (p : String) : String :=
  (p.splitOn ("/")).getLastD ""

/-- Model of `CatsEmuDS.pause_emulation` (lines 685-691): sets `paused`, calls
`emu.pause()` (core-side, no modelled state), updates status and state
indicator. -/
def pause_emulation (s : EmuState) : EmuState :=
  { s with paused := true
           statusMsg := "Paused"
           stateIndicator := "PAUSED" }

/-- Model of `CatsEmuDS.run_emulation` (lines 673-683): with no ROM loaded it only
shows an info dialog and returns; otherwise clears `paused`, calls
`emu.resume()` (core-side), updates status and indicator. -/
def run_emulation (s : EmuState) : EmuState :=
  if s.rom_path.isSome then
    { s with paused := false
             statusMsg := "Running: " ++ s.rom_name
             stateIndicator := "RUNNING" }
  else s

/-- Model of `CatsEmuDS._start_emulation_thread` (lines 575-585): returns early when
`running` is already true, otherwise sets `running` and spawns the
emulation-loop thread (the thread itself is modelled by `Op.pump` steps). -/
def start_emulation_thread (s : EmuState) : EmuState :=
  if s.running then s else { s with running := true }

/-- Model of `CatsEmuDS.load_rom` (lines 508-554). `isFile` is the outcome of
`os.path.isfile(path)`; `openOk` says whether `self.emu.open(path)` returned
normally or raised. Returns the Python return value paired with the state
after the call. The failure dialogs (`messagebox.showerror`) carry no state. -/
def load_rom (s : EmuState) (path : String) (isFile openOk : Bool) :
    Bool × EmuState :=
  if !isFile then (false, s)
  else
    match s.emu with
    | none => (false, s)
    | some _ =>
      let s1 := if s.running && !s.paused then pause_emulation s else s
      if openOk then
        let s2 := { s1 with
          rom_path := some path
          rom_name := basename path
          windowTitle := TITLE ++ " " ++ VERSION ++ " - " ++ basename path
          frame_count := 0
          fps := 0
          statusMsg := "Loaded: " ++ basename path
          stateIndicator := "PAUSED" }
        (true, start_emulation_thread s2)
      else (false, s1)

/-- Model of `CatsEmuDS.close_rom` (lines 556-569): forces `paused`, clears the ROM
fields, resets the title, status and indicator, redraws placeholders
(visual only). Note the code does not touch `running`. -/
def close_rom (s : EmuState) : EmuState :=
  { s with paused := true
           rom_path := none
           rom_name := "No ROM Loaded"
           windowTitle := TITLE ++ " " ++ VERSION
           statusMsg := "ROM closed"
           stateIndicator := "STOPPED" }

/-- Model of `CatsEmuDS.frame_advance` (lines 700-708). Guard `self.emu and
self.rom_path`; inside it sets `paused`, calls `emu.cycle()` (no try/except
here, so a raising cycle propagates out of the Tk callback after the
`paused = True` assignment but before the counter increment), then increments
`frame_count`, refreshes the display, status and indicator. The Bool in the
result records whether the call raised. -/
def frame_advance (s : EmuState) (cyc : CycleResult) : EmuState × Bool :=
  if s.emu.isSome && s.rom_path.isSome then
    match cyc with
    | CycleResult.ok _ =>
        ({ s with paused := true
                  frame_count := s.frame_count + 1
                  statusMsg := "Frame: " ++ toString (s.frame_count + 1)
                  stateIndicator := "PAUSED" }, false)
    | CycleResult.fault _ => ({ s with paused := true }, true)
  else (s, false)

/-- Model of `CatsEmuDS._on_close` (lines 1098-1106): clears `running`, destroys the
core and the window (no further state the claims observe). Note the code
does not touch `paused`. -/
def on_close (s : EmuState) : EmuState :=
  { s with running := false }

/-- The nominal frame period of `_emulation_loop`:
`frame_time = 1.0 / target_fps` with `target_fps = 60`. -/
def frame_time : ℚ := 1 / 60

/-- What one iteration of the `while self.running` loop body produces. -/
structure LoopIterOut where
  state : EmuState
  console : List String
  sleep : ℚ
deriving DecidableEq

/-- One iteration of `CatsEmuDS._emulation_loop` (lines 587-612).
`none` means the `while self.running` condition was false and the loop (the
Frame Pump) terminated. Otherwise the iteration yields the new state, the
console lines printed, and the duration slept: on a successful
`emu.cycle()` both frame counters are incremented and the loop sleeps the
remainder of the frame period (nothing when the cycle overran it); on an
exception from `emu.cycle()` the handler prints the error, forces `paused`,
and `continue`s (no sleep, counters untouched); when paused or no ROM is
loaded the loop idles for 0.01 s. -/
def emulation_loop_step (s : EmuState) (cyc : CycleResult) :
    Option LoopIterOut :=
  if s.running then
    if !s.paused && s.rom_path.isSome && s.emu.isSome then
      match cyc with
      | CycleResult.ok elapsed =>
          some { state := { s with frame_count := s.frame_count + 1
                                   fps_frame_count := s.fps_frame_count + 1 }
                 console := []
                 sleep := if elapsed < frame_time then frame_time - elapsed
                          else 0 }
      | CycleResult.fault msg =>
          some { state := { s with paused := true }
                 console := ["[CatOS] Emulation error: " ++ msg]
                 sleep := 0 }
    else
      some { state := s, console := [], sleep := 1 / 100 }
  else none

/-- Model of `CatsEmuDS._update_fps` (lines 660-671), called once per ~16 ms display
tick with the current `time.time()` as `now`. Everything — the rate
computation, the sample-window reset, and both label updates (`fps_label`
and `frame_label`) — sits inside the `if elapsed >= 1.0` block. -/
def update_fps (s : EmuState) (now : ℚ) : EmuState :=
  let elapsed := now - s.fps_timer
  if 1 ≤ elapsed then
    { s with fps := (s.fps_frame_count : ℚ) / elapsed
             fps_frame_count := 0
             fps_timer := now
             fpsLabel := some ((s.fps_frame_count : ℚ) / elapsed)
             frameLabel := s.frame_count }
  else s

/-- Model of `CatsEmuDS._on_touch_start` (lines 805-818): guard `self.emu and
self.rom_path`; display coordinates are floor-divided by the active scale
(`screen_scale` is the 1/2/3 `IntVar`; Python `//` is `Int.fdiv`), and the
touch is applied only when the scaled point lies inside the logical
256 x 192 bottom screen — otherwise the event is dropped, not clamped. -/
def on_touch_start (s : EmuState) (ex ey : Int) : EmuState :=
  match s.emu with
  | none => s
  | some c =>
    if s.rom_path.isSome then
      let x := Int.fdiv ex s.screen_scale
      let y := Int.fdiv ey s.screen_scale
      if 0 ≤ x ∧ x < 256 ∧ 0 ≤ y ∧ y < 192 then
        { s with emu := some { c with touch := some (x, y) } }
      else s
    else s

/-- Model of `CatsEmuDS._on_touch_move` (lines 820-822) delegates to
`_on_touch_start`. -/
def on_touch_move (s : EmuState) (ex ey : Int) : EmuState :=
  on_touch_start s ex ey

/-- Model of `CatsEmuDS._on_touch_end` (lines 824-830): whenever a core exists, calls
`emu.input.touch_release()`, clearing the touch state — with no bounds or
ROM guard. -/
def on_touch_end (s : EmuState) : EmuState :=
  match s.emu with
  | none => s
  | some c => { s with emu := some { c with touch := none } }

/-- The user-level operations whose sequences the reachability claims range
over: ROM load (with the environment outcomes of `isfile` and `emu.open`),
run, pause, ROM close, frame advance, one Frame Pump iteration, one FPS
display tick, and window close. -/
inductive Op where
  | load (path : String) (isFile openOk : Bool)
  | run
  | pauseOp
  | closeRom
  | stepOp (cyc : CycleResult)
  | pump (cyc : CycleResult)
  | fpsTick (now : ℚ)
  | onClose
deriving DecidableEq

def applyOp (s : EmuState) (op : Op) : EmuState :=
  match op with
  | Op.load p f o => (load_rom s p f o).2
  | Op.run => run_emulation s
  | Op.pauseOp => pause_emulation s
  | Op.closeRom => close_rom s
  | Op.stepOp c => (frame_advance s c).1
  | Op.pump c =>
      match emulation_loop_step s c with
      | some out => out.state
      | none => s
  | Op.fpsTick now => update_fps s now
  | Op.onClose => on_close s

def execOps (s : EmuState) (ops : List Op) : EmuState :=
  ops.foldl applyOp s

/-- A concrete reachable state with a ROM loaded and emulation running:
construct, load successfully, run. -/
def runningState : EmuState :=
  execOps (initState true 0) [Op.load ("game.nds") true true, Op.run]

/-- A concrete reachable state right after a successful load (Paused). -/
def loadedState : EmuState :=
  execOps (initState true 0) [Op.load ("game.nds") true true]

/-- Formalisation of the spec phrase that on a CoreFault the Frame Pump
"record[s] `Session.lastError`": a step can only have recorded the fault's
error in the program state if the resulting state is able to depend on the
fault message; if every fault message leads to the identical post-state,
nothing about the error was recorded. -/
def recordsLastError (step : EmuState → CycleResult → Option LoopIterOut)
    (s : EmuState) : Prop :=
  ∃ m₁ m₂ : String,
    Option.map LoopIterOut.state (step s (CycleResult.fault m₁)) ≠
      Option.map LoopIterOut.state (step s (CycleResult.fault m₂))

/-- The control-state invariant that actually is inductive for all
operations except window close: `paused` whenever not `running`, and a
loaded ROM implies the pump thread was started. -/
def CtlInv (s : EmuState) : Prop :=
  (s.running = false → s.paused = true) ∧
  (s.rom_path.isSome = true → s.running = true)

/-- The concrete state used for the FPS-tick counterexample: construct, load
successfully, frame-advance twice. `frame_count = 2` but the frame readout
still shows its initial 0, and `fps_timer = 0`. -/
def tickState : EmuState :=
  execOps (initState true 0)
    [Op.load ("game.nds") true true, Op.stepOp (CycleResult.ok 0),
     Op.stepOp (CycleResult.ok 0)]

/-- A concrete state with an active in-bounds touch, used as the witness
input for the touch claim. -/
def touchState : EmuState :=
  { runningState with emu := some { touch := some (3, 4) } }

/-! Claim theorems. -/

/-- Claim C9 (confirmed): for every prior state, `close_rom` transitions the
session to Stopped — it forces `paused` to true and clears the Session
(`rom_path` becomes `none` and the ROM name reverts to the unloaded
placeholder). -/
theorem close_rom_stops_and_clears (s : EmuState) :
    runState (close_rom s) = RunState.Stopped ∧
    (close_rom s).paused = true ∧
    (close_rom s).rom_path = none ∧
    (close_rom s).rom_name = "No ROM Loaded" := by
  refine ⟨?_, rfl, rfl, rfl⟩
  simp [runState, close_rom]

/-- Claim C10 (confirmed): in every Frame Pump iteration in which
`emu.cycle()` raises, `frame_count` and the frames-since-sample counter
`fps_frame_count` are left unchanged by that iteration — the counters are
incremented only after a successful frame advance. -/
theorem fault_leaves_frame_counters_unchanged (s : EmuState) (msg : String)
    (out : LoopIterOut)
    (h : emulation_loop_step s (CycleResult.fault msg) = some out) :
    out.state.frame_count = s.frame_count ∧
    out.state.fps_frame_count = s.fps_frame_count := by
  unfold emulation_loop_step at h
  split at h
  · split at h
    · simp only [Option.some.injEq] at h
      subst h
      exact ⟨rfl, rfl⟩
    · simp only [Option.some.injEq] at h
      subst h
      exact ⟨rfl, rfl⟩
  · exact absurd h (by simp)

/-- Witness for `fault_leaves_frame_counters_unchanged` at the concrete
reachable running state and fault message "x". -/
theorem fault_leaves_frame_counters_unchanged_witness :
    ({ runningState with paused := true } : EmuState).frame_count
        = runningState.frame_count ∧
    ({ runningState with paused := true } : EmuState).fps_frame_count
        = runningState.fps_frame_count :=
  fault_leaves_frame_counters_unchanged runningState ("x")
    { state := { runningState with paused := true }
      console := ["[CatOS] Emulation error: " ++ "x"]
      sleep := 0 } rfl

/-- Claim C2 (confirmed): whenever a Session exists (core present and ROM
loaded) and the core's cycle call returns normally, `frame_advance` leaves
`runState` equal to Paused and increments `frame_count` by exactly 1; when
the state is Stopped (no ROM loaded or no core), `frame_advance` is a no-op
that changes nothing and raises nothing. -/
theorem frame_advance_paused_increment (s : EmuState) (d : ℚ) :
    (s.emu.isSome = true → s.rom_path.isSome = true →
      runState (frame_advance s (CycleResult.ok d)).1 = RunState.Paused ∧
      (frame_advance s (CycleResult.ok d)).1.frame_count
        = s.frame_count + 1) ∧
    (runState s = RunState.Stopped →
      ∀ cyc, frame_advance s cyc = (s, false)) := by
  constructor
  · intro hemu hrom
    simp [frame_advance, hemu, hrom, runState]
  · intro hstop cyc
    unfold runState at hstop
    simp only [frame_advance]
    split at hstop
    · split at hstop <;> exact absurd hstop (by simp)
    · rename_i hcond
      rw [Bool.and_comm] at hcond
      simp [hcond]

/-- Witness for `frame_advance_paused_increment`: a frame advance in the
concrete loaded state, and a no-op frame advance in the freshly constructed
(Stopped) state. -/
theorem frame_advance_paused_increment_witness :
    (runState (frame_advance loadedState (CycleResult.ok 0)).1
        = RunState.Paused ∧
      (frame_advance loadedState (CycleResult.ok 0)).1.frame_count
        = loadedState.frame_count + 1) ∧
    frame_advance (initState true 0) (CycleResult.ok 0)
        = (initState true 0, false) :=
  ⟨(frame_advance_paused_increment loadedState 0).1 rfl rfl,
   (frame_advance_paused_increment (initState true 0) 0).2 rfl
     (CycleResult.ok 0)⟩

/-- Claim C4 (confirmed): in every Frame Pump iteration that advances a
frame, if the cycle's elapsed time is below the nominal period the loop
sleeps exactly the remainder of the period, and if it meets or exceeds the
period the loop proceeds immediately (zero sleep, no compensation or
frame-skip: the state advances by exactly one frame either way). -/
theorem frame_pacing_sleep_remainder (s : EmuState) (d : ℚ)
    (hrun : s.running = true) (hp : s.paused = false)
    (hrom : s.rom_path.isSome = true) (hemu : s.emu.isSome = true) :
    (d < frame_time →
      emulation_loop_step s (CycleResult.ok d)
        = some { state := { s with frame_count := s.frame_count + 1
                                   fps_frame_count := s.fps_frame_count + 1 }
                 console := []
                 sleep := frame_time - d }) ∧
    (frame_time ≤ d →
      emulation_loop_step s (CycleResult.ok d)
        = some { state := { s with frame_count := s.frame_count + 1
                                   fps_frame_count := s.fps_frame_count + 1 }
                 console := []
                 sleep := 0 }) := by
  constructor
  · intro hlt
    simp [emulation_loop_step, hrun, hp, hrom, hemu, hlt]
  · intro hge
    simp [emulation_loop_step, hrun, hp, hrom, hemu, not_lt.mpr hge]

/-- Witness for `frame_pacing_sleep_remainder` at the concrete running state:
a cycle of 1/120 s sleeps the remaining 1/120 s, a cycle of 1 s sleeps
nothing. -/
theorem frame_pacing_sleep_remainder_witness :
    Option.map LoopIterOut.sleep
        (emulation_loop_step runningState (CycleResult.ok (1 / 120)))
      = some (1 / 120) ∧
    Option.map LoopIterOut.sleep
        (emulation_loop_step runningState (CycleResult.ok 1))
      = some 0 := by
  constructor
  · rw [(frame_pacing_sleep_remainder runningState (1 / 120) rfl rfl rfl
      rfl).1 (by norm_num [frame_time])]
    norm_num [frame_time]
  · rw [(frame_pacing_sleep_remainder runningState 1 rfl rfl rfl rfl).2
      (by norm_num [frame_time])]
    rfl

/-- Claim C1 counterexample (corrected): at the concrete reachable running
state, a faulting Frame Pump iteration does NOT record `Session.lastError` —
the resulting program state is the same for every fault message, so nothing
about the error is recorded anywhere in the state (the state has no
`lastError` field; the message only goes to the console). The post-state is
exactly the pre-state with `paused` forced to true. -/
theorem frame_pump_fault_forgets_error_message :
    ¬ recordsLastError emulation_loop_step runningState ∧
    Option.map LoopIterOut.state
        (emulation_loop_step runningState (CycleResult.fault ("boom")))
      = some { runningState with paused := true } := by
  constructor
  · rintro ⟨m₁, m₂, hne⟩
    exact hne rfl
  · rfl

/-- Claim C1 amended (theorem): in every Frame Pump iteration in which
`emu.cycle()` raises, the loop forces `paused` to true, prints the error to
the console (no `lastError` is recorded in the program state), and continues
looping rather than terminating (the step yields `some`, not the terminal
`none`), so a subsequent `run_emulation` clears `paused` and resumes. -/
theorem frame_pump_fault_pauses_prints_continues (s : EmuState)
    (msg : String) (hrun : s.running = true) (hp : s.paused = false)
    (hrom : s.rom_path.isSome = true) (hemu : s.emu.isSome = true) :
    emulation_loop_step s (CycleResult.fault msg)
      = some { state := { s with paused := true }
               console := ["[CatOS] Emulation error: " ++ msg]
               sleep := 0 } ∧
    (run_emulation { s with paused := true }).paused = false := by
  constructor
  · simp [emulation_loop_step, hrun, hp, hrom, hemu]
  · simp [run_emulation, hrom]

/-- Witness for `frame_pump_fault_pauses_prints_continues` at the concrete
reachable running state. -/
theorem frame_pump_fault_pauses_prints_continues_witness :
    emulation_loop_step runningState (CycleResult.fault ("boom"))
      = some { state := { runningState with paused := true }
               console := ["[CatOS] Emulation error: " ++ "boom"]
               sleep := 0 } ∧
    (run_emulation { runningState with paused := true }).paused = false :=
  frame_pump_fault_pauses_prints_continues runningState ("boom")
    rfl rfl rfl rfl

theorem ctlInv_init (emuAvail : Bool) (t0 : ℚ) :
    CtlInv (initState emuAvail t0) := by
  constructor
  · intro _; rfl
  · intro h; exact absurd h (by simp [initState])

theorem start_thread_running (s : EmuState) :
    (start_emulation_thread s).running = true := by
  unfold start_emulation_thread
  split
  · assumption
  · rfl

theorem ctlInv_applyOp (s : EmuState) (op : Op) (hop : op ≠ Op.onClose)
    (h : CtlInv s) : CtlInv (applyOp s op) := by
  obtain ⟨h1, h2⟩ := h
  cases op with
  | load p f o =>
    dsimp only [applyOp, load_rom]
    split
    · exact ⟨h1, h2⟩
    · split
      · exact ⟨h1, h2⟩
      · split
        · dsimp only
          refine ⟨fun hr => ?_, fun _ => start_thread_running _⟩
          rw [start_thread_running] at hr
          cases hr
        · dsimp only
          split
          · exact ⟨fun _ => rfl, fun hr => h2 hr⟩
          · exact ⟨h1, h2⟩
  | run =>
    dsimp only [applyOp, run_emulation]
    split
    · rename_i hrom
      refine ⟨fun hr => ?_, fun _ => h2 hrom⟩
      have hr' : s.running = false := hr
      exact absurd (hr'.symm.trans (h2 hrom)) (by decide)
    · exact ⟨h1, h2⟩
  | pauseOp =>
    exact ⟨fun _ => rfl, fun hr => h2 hr⟩
  | closeRom =>
    exact ⟨fun _ => rfl, fun hr => nomatch hr⟩
  | stepOp c =>
    cases c with
    | ok d =>
      dsimp only [applyOp, frame_advance]
      split
      · exact ⟨fun _ => rfl, fun hr => h2 hr⟩
      · exact ⟨h1, h2⟩
    | fault m =>
      dsimp only [applyOp, frame_advance]
      split
      · exact ⟨fun _ => rfl, fun hr => h2 hr⟩
      · exact ⟨h1, h2⟩
  | pump c =>
    dsimp only [applyOp]
    cases hstep : emulation_loop_step s c with
    | none => exact ⟨h1, h2⟩
    | some out =>
      unfold emulation_loop_step at hstep
      split at hstep
      · rename_i hrun
        split at hstep
        · cases c with
          | ok d =>
            simp only [Option.some.injEq] at hstep
            subst hstep
            refine ⟨fun hr => ?_, fun _ => hrun⟩
            have hr' : s.running = false := hr
            exact absurd (hr'.symm.trans hrun) (by decide)
          | fault m =>
            simp only [Option.some.injEq] at hstep
            subst hstep
            exact ⟨fun _ => rfl, fun _ => hrun⟩
        · simp only [Option.some.injEq] at hstep
          subst hstep
          exact ⟨h1, h2⟩
      · cases hstep
  | fpsTick now =>
    dsimp only [applyOp, update_fps]
    split
    · exact ⟨fun hr => h1 hr, fun hr => h2 hr⟩
    · exact ⟨h1, h2⟩
  | onClose => exact absurd rfl hop

theorem ctlInv_execOps (ops : List Op) (hops : Op.onClose ∉ ops)
    (s : EmuState) (h : CtlInv s) : CtlInv (execOps s ops) := by
  induction ops generalizing s with
  | nil => exact h
  | cons op rest ih =>
    have hop : op ≠ Op.onClose := fun he => hops (he ▸ List.mem_cons_self _ _)
    have hrest : Op.onClose ∉ rest := fun hm => hops (List.mem_cons_of_mem _ hm)
    exact ih hrest (applyOp s op) (ctlInv_applyOp s op hop h)

/-- Claim C3 counterexample (corrected): the state reached from construction
by a successful load, then `run_emulation`, then the window-close handler
`_on_close` has `running = false` and `paused = false` — window close clears
`running` without forcing `paused`, so the claimed invariant fails on this
reachable state. -/
theorem window_close_breaks_paused_invariant :
    (execOps (initState true 0)
        [Op.load ("game.nds") true true, Op.run, Op.onClose]).running
      = false ∧
    (execOps (initState true 0)
        [Op.load ("game.nds") true true, Op.run, Op.onClose]).paused
      = false :=
  ⟨rfl, rfl⟩

/-- Claim C3 amended (theorem): in every state reachable from construction by
a sequence of load / run / pause / close-ROM / step / pump / FPS-tick
operations that does not include the window-close handler, `paused` is true
whenever `running` is false. (Window close sets `running := false` without
touching `paused`, which breaks the invariant; see the counterexample.) -/
theorem paused_when_not_running_invariant (emuAvail : Bool) (t0 : ℚ)
    (ops : List Op) (hops : Op.onClose ∉ ops)
    (hrun : (execOps (initState emuAvail t0) ops).running = false) :
    (execOps (initState emuAvail t0) ops).paused = true :=
  (ctlInv_execOps ops hops (initState emuAvail t0)
    (ctlInv_init emuAvail t0)).1 hrun

/-- Witness for `paused_when_not_running_invariant`: after construction and
a lone pause command, `running` is false and `paused` is true. -/
theorem paused_when_not_running_invariant_witness :
    (execOps (initState true 0) [Op.pauseOp]).paused = true :=
  paused_when_not_running_invariant true 0 [Op.pauseOp] (by decide) rfl

/-- Claim C5 counterexample (corrected): loading a ROM that the core rejects
(`emu.open` raises) while the session is Running returns `false` but does
NOT leave the run/pause state unchanged — the code pauses before attempting
the open, so `paused` flips from false to true. -/
theorem load_reject_while_running_pauses :
    (load_rom runningState ("bad.nds") true false).1 = false ∧
    runningState.paused = false ∧
    (load_rom runningState ("bad.nds") true false).2.paused = true :=
  ⟨rfl, rfl, rfl⟩

/-- Claim C5 amended (theorem): every failing `load_rom` call returns
`false` and leaves `rom_path`, `rom_name`, `frame_count` and `running`
unchanged; a missing path or a missing core leaves the whole state
unchanged, but a core-rejected open happens after the
pause-if-running step, so a session that was Running is left Paused. -/
theorem load_failure_reported_session_fields_unchanged (s : EmuState)
    (p : String) (openOk : Bool) :
    (∀ o, load_rom s p false o = (false, s)) ∧
    (s.emu = none → load_rom s p true openOk = (false, s)) ∧
    (s.emu.isSome = true →
      load_rom s p true false
        = (false,
           if s.running && !s.paused then pause_emulation s else s)) ∧
    ((load_rom s p true false).2.rom_path = s.rom_path ∧
     (load_rom s p true false).2.rom_name = s.rom_name ∧
     (load_rom s p true false).2.frame_count = s.frame_count ∧
     (load_rom s p true false).2.running = s.running) := by
  refine ⟨fun o => rfl, fun h => by simp [load_rom, h], fun h => ?_, ?_⟩
  · obtain ⟨c, hc⟩ := Option.isSome_iff_exists.mp h
    simp [load_rom, hc]
  · cases hc : s.emu with
    | none => simp [load_rom, hc]
    | some c =>
      have hred : load_rom s p true false
          = (false,
             if s.running && !s.paused then pause_emulation s else s) := by
        simp [load_rom, hc]
      rw [hred]
      split <;> simp [pause_emulation]

/-- Witness for `load_failure_reported_session_fields_unchanged`: the
core-rejection case at the concrete running state. -/
theorem load_failure_reported_session_fields_unchanged_witness :
    load_rom runningState ("bad.nds") true false
      = (false, pause_emulation runningState) := by
  have h := (load_failure_reported_session_fields_unchanged runningState
    ("bad.nds") false).2.2.1 rfl
  rw [h]
  rfl

/-- Claim C6 counterexample (corrected): an FPS-update tick arriving half a
second into the sample window changes nothing at all — in particular the
frame-counter readout is NOT updated on every tick: it stays at 0 while
`frame_count` is 2, because `frame_label.config` sits inside the
`if elapsed >= 1.0` block. -/
theorem fps_tick_skips_frame_readout :
    update_fps tickState (1 / 2) = tickState ∧
    tickState.frame_count = 2 ∧ tickState.frameLabel = 0 := by
  have ht : tickState.fps_timer = 0 := rfl
  refine ⟨?_, rfl, rfl⟩
  simp only [update_fps, ht]
  norm_num

/-- Claim C6 amended (theorem): on an FPS-update tick where at least one
wall-clock second has elapsed, the rate is recomputed as
frames-since-sample / elapsed seconds, the sample window is reset, and both
the FPS readout and the frame-counter readout are refreshed; on a tick
where less than one second has elapsed the state — the frame-counter
readout included — is left entirely unchanged (the readout update is
conditional, not unconditional). -/
theorem fps_update_once_per_second (s : EmuState) (now : ℚ) :
    (1 ≤ now - s.fps_timer →
      update_fps s now
        = { s with
            fps := (s.fps_frame_count : ℚ) / (now - s.fps_timer)
            fps_frame_count := 0
            fps_timer := now
            fpsLabel := some ((s.fps_frame_count : ℚ) / (now - s.fps_timer))
            frameLabel := s.frame_count }) ∧
    (now - s.fps_timer < 1 → update_fps s now = s) := by
  constructor
  · intro h
    simp [update_fps, h]
  · intro h
    simp [update_fps, not_le.mpr h]

/-- Witness for `fps_update_once_per_second`: a tick two seconds after
construction updates the readout; a tick half a second after construction
changes nothing. -/
theorem fps_update_once_per_second_witness :
    (update_fps (initState true 0) 2).frameLabel
        = (initState true 0).frame_count ∧
    update_fps (initState true 0) (1 / 2) = initState true 0 := by
  constructor
  · rw [(fps_update_once_per_second (initState true 0) 2).1
      (by norm_num [initState])]
  · exact (fps_update_once_per_second (initState true 0) (1 / 2)).2
      (by norm_num [initState])

/-- Claim C7 (confirmed): a touch press or drag whose display coordinates,
floor-divided by the active scale factor, fall outside the logical 256 x 192
bottom-screen bounds is dropped (the state is unchanged — not clamped), and
a touch release clears the touch state of whatever core exists,
unconditionally. -/
theorem touch_out_of_bounds_dropped_release_clears (s : EmuState)
    (ex ey : Int)
    (hout : ¬ (0 ≤ Int.fdiv ex s.screen_scale ∧
               Int.fdiv ex s.screen_scale < 256 ∧
               0 ≤ Int.fdiv ey s.screen_scale ∧
               Int.fdiv ey s.screen_scale < 192)) :
    on_touch_start s ex ey = s ∧
    on_touch_move s ex ey = s ∧
    ∀ c, (on_touch_end s).emu = some c → c.touch = none := by
  have hstart : on_touch_start s ex ey = s := by
    unfold on_touch_start
    cases s.emu with
    | none => rfl
    | some c =>
      dsimp only
      rw [if_neg hout, ite_self]
  refine ⟨hstart, hstart, fun c hc => ?_⟩
  cases hemu : s.emu with
  | none =>
    unfold on_touch_end at hc
    rw [hemu] at hc
    exact absurd (hemu ▸ hc) (by simp [hemu])
  | some c0 =>
    unfold on_touch_end at hc
    rw [hemu] at hc
    have hcc : ({ c0 with touch := none } : Core) = c := Option.some.inj hc
    rw [← hcc]

/-- Witness for `touch_out_of_bounds_dropped_release_clears`: display point
(600, 100) at scale 2 maps to logical x = 300, which is out of bounds, so
press and drag are dropped; the subsequent release clears the previously
held touch. -/
theorem touch_out_of_bounds_dropped_release_clears_witness :
    on_touch_start touchState 600 100 = touchState ∧
    on_touch_move touchState 600 100 = touchState ∧
    ({ touch := none } : Core).touch = none :=
  ⟨(touch_out_of_bounds_dropped_release_clears touchState 600 100
      (by decide)).1,
   (touch_out_of_bounds_dropped_release_clears touchState 600 100
      (by decide)).2.1,
   (touch_out_of_bounds_dropped_release_clears touchState 600 100
      (by decide)).2.2 { touch := none } rfl⟩

theorem start_thread_frame_count (s : EmuState) :
    (start_emulation_thread s).frame_count = s.frame_count := by
  unfold start_emulation_thread
  split <;> rfl

theorem runState_start_thread (s : EmuState) :
    runState (start_emulation_thread s) = runState s := by
  unfold start_emulation_thread
  split <;> rfl

theorem load_rom_success_eq (s : EmuState) (p : String) (c : Core)
    (hemu : s.emu = some c) :
    load_rom s p true true
      = (true, start_emulation_thread
          { (if s.running && !s.paused then pause_emulation s else s) with
            rom_path := some p
            rom_name := basename p
            windowTitle := TITLE ++ " " ++ VERSION ++ " - " ++ basename p
            frame_count := 0
            fps := 0
            statusMsg := "Loaded: " ++ basename p
            stateIndicator := "PAUSED" }) := by
  unfold load_rom
  rw [hemu]
  rfl

/-- Claim C8 (confirmed): every successful `load_rom` call, from any state
satisfying the control invariant that the pump is running or the session is
paused (which holds in all reachable states short of window close), leaves
the session Paused — loading never auto-runs, including when the previous
session was Running — with `frame_count` equal to 0. -/
theorem load_success_paused_zero_frames (s : EmuState) (p : String)
    (hinv : s.running = true ∨ s.paused = true) (out : EmuState)
    (hok : load_rom s p true true = (true, out)) :
    runState out = RunState.Paused ∧ out.frame_count = 0 := by
  cases hemu : s.emu with
  | none => simp [load_rom, hemu] at hok
  | some c =>
    rw [load_rom_success_eq s p c hemu] at hok
    have hout := congrArg Prod.snd hok
    dsimp only at hout
    subst hout
    have hpause :
        (if s.running && !s.paused then pause_emulation s else s).paused
          = true := by
      split
      · rfl
      · rename_i hcond
        rcases hinv with hr | hp
        · cases hps : s.paused with
          | true => rfl
          | false => exact absurd (by rw [hr, hps]; rfl) hcond
        · exact hp
    have hemu1 :
        (if s.running && !s.paused then pause_emulation s else s).emu
          = s.emu := by
      split <;> rfl
    constructor
    · rw [runState_start_thread]
      unfold runState
      dsimp only
      rw [hemu1, hemu, hpause]
      rfl
    · rw [start_thread_frame_count]

/-- Witness for `load_success_paused_zero_frames`: the concrete successful
load from the freshly constructed state. -/
theorem load_success_paused_zero_frames_witness :
    runState loadedState = RunState.Paused ∧ loadedState.frame_count = 0 :=
  load_success_paused_zero_frames (initState true 0) "game.nds"
    (Or.inr rfl) loadedState rfl

end CatsEmu
